import Mathlib

set_option maxRecDepth 10000

/-!
Shallow embedding of src/effdet/bench.py (the support benches of the
timm-efficientdet-pytorch repository) together with models of the pieces of
the repository that the benches import but whose sources are not available
(anchors.py, loss.py, the config module): those models are marked
"Modelled from the spec" and follow the natural-language specification.

Tensors are embedded as shapes plus total entry functions over flat natural
indices; this matches the contiguous row-major layout PyTorch uses, and makes
permute / reshape / cat / gather pure index arithmetic, exactly as in the
source.  Scores are embedded as integers (an arbitrary linearly ordered
carrier suffices for every claim below); thresholds and box coordinates are
rationals.  Integer tensor division (the `/` on the int64 index tensor at
line 36 of bench.py) is embedded as natural floor division, the semantics of
the PyTorch versions this code targets; the following `.to(torch.int64)`
casts are then the identity.
-/

/-- A rank-4 tensor: four dimension sizes and a total entry function.
PyTorch convolutional outputs are channels-first, so for the network levels
the dimensions read (batch, channel, height, width). -/
structure Tensor4 where
  d0 : Nat
  d1 : Nat
  d2 : Nat
  d3 : Nat
  entry : Nat → Nat → Nat → Nat → Int

/-- A rank-3 tensor with dimensions (batch, rows, columns). -/
structure Tensor3 where
  b : Nat
  n : Nat
  c : Nat
  entry : Nat → Nat → Nat → Int

/-- A rank-2 tensor with dimensions (batch, columns). -/
structure Tensor2 where
  b : Nat
  n : Nat
  entry : Nat → Nat → Int

/-- A rank-2 tensor of natural-number indices (int64 index tensors). -/
structure IdxTensor2 where
  b : Nat
  n : Nat
  entry : Nat → Nat → Nat

/-- Default rank-4 tensor (used only to totalise list lookups). -/
def dT4 : Tensor4 := ⟨0, 0, 0, 0, fun _ _ _ _ => 0⟩

/-- Default rank-3 tensor (used only to totalise list lookups). -/
def dT3 : Tensor3 := ⟨0, 0, 0, fun _ _ _ => 0⟩

/-- Number of elements of a rank-4 tensor. -/
def Tensor4.numel (t : Tensor4) : Nat := t.d0 * t.d1 * t.d2 * t.d3

/-- Embedding of `t.permute(0, 2, 3, 1).reshape([batchSize, -1, c])`
(bench.py lines 28 and 32).  The element of the result at position
(bb, nn, cc) sits at flat offset bb * (mid * c) + nn * c + cc of the
contiguous permuted tensor, whose row-major shape is (d0, d2, d3, d1);
decomposing that offset recovers the source indices. -/
def prTensor (t : Tensor4) (batchSize c : Nat) : Tensor3 where
  b := batchSize
  n := t.numel / (batchSize * c)
  c := c
  entry := fun bb nn cc =>
    let g := bb * (t.numel / (batchSize * c) * c) + (nn * c + cc)
    t.entry (g / (t.d1 * t.d3 * t.d2)) (g % t.d1) ((g / (t.d1 * t.d3)) % t.d2)
      ((g / t.d1) % t.d3)

/-- Guard of the reshape: PyTorch refuses `reshape([b, -1, c])` when the
inferred dimension is ambiguous (b * c = 0) or the element count is not
divisible by b * c. -/
def permuteReshape (t : Tensor4) (batchSize c : Nat) : Except String Tensor3 :=
  if 0 < batchSize * c ∧ t.numel % (batchSize * c) = 0 then
    Except.ok (prTensor t batchSize c)
  else
    Except.error ("cannot reshape tensor")

/-- Effectful map used for the per-level list comprehensions inside the
`torch.cat([...])` calls; evaluation is left to right, as in Python. -/
def mapExcept (f : Nat → Except String Tensor3) : List Nat → Except String (List Tensor3)
  | [] => Except.ok []
  | x :: xs => do
    let y ← f x
    let ys ← mapExcept f xs
    return y :: ys

/-- Concatenation of two rank-3 tensors along dimension 1. -/
def cat2 (s t : Tensor3) : Tensor3 where
  b := s.b
  n := s.n + t.n
  c := s.c
  entry := fun bb nn cc =>
    if nn < s.n then s.entry bb nn cc else t.entry bb (nn - s.n) cc

/-- Worker for `torch.cat(ts, 1)`: every tensor must agree with the
accumulator on the non-concatenated dimensions, else the call raises. -/
def catAux (acc : Tensor3) : List Tensor3 → Except String Tensor3
  | [] => Except.ok acc
  | t :: ts =>
    if t.b = acc.b ∧ t.c = acc.c then catAux (cat2 acc t) ts
    else Except.error ("cat shape mismatch")

/-- Embedding of `torch.cat(ts, 1)`; an empty tensor list raises. -/
def cat1 : List Tensor3 → Except String Tensor3
  | [] => Except.error ("cat expects a non-empty list of tensors")
  | t :: ts => catAux t ts

/-- One element of the per-level list comprehension: Python list indexing
`outputs[level]` raises when the index is out of range. -/
def levelSlice (outputs : List Tensor4) (batchSize c level : Nat) : Except String Tensor3 :=
  match outputs.get? level with
  | none => Except.error ("list index out of range")
  | some t => permuteReshape t batchSize c

/-- Embedding of
`torch.cat([outputs[level].permute(0,2,3,1).reshape([batch_size, -1, c]) for level in range(num_levels)], 1)`
(bench.py lines 27-33). -/
def concatLevels (outputs : List Tensor4) (numLevels batchSize c : Nat) :
    Except String Tensor3 := do
  let ts ← mapExcept (levelSlice outputs batchSize c) (List.range numLevels)
  cat1 ts

/-- Embedding of `t.reshape(batch_size, -1)` on the concatenated
(batch, n, c) tensor: rows and columns are fused row-major. -/
def flat2 (t : Tensor3) : Tensor2 where
  b := t.b
  n := t.n * t.c
  entry := fun bb mm => t.entry bb (mm / t.c) (mm % t.c)

/-- Insertion step of a stable descending sort of indices by score. -/
def insertDesc (score : Nat → Int) (x : Nat) : List Nat → List Nat
  | [] => [x]
  | y :: ys => if score y ≤ score x then x :: y :: ys else y :: insertDesc score x ys

/-- Stable descending sort of indices by score: among equal scores the lower
index comes first.  `torch.topk` does not document its tie order (and it
differs between devices); this embedding fixes the stable order as one
admissible refinement, and no theorem below relies on the tie order. -/
def sortDesc (score : Nat → Int) : List Nat → List Nat
  | [] => []
  | x :: xs => insertDesc score x (sortDesc score xs)

/-- Index tensor produced by `torch.topk(s, k, dim=1)` (values discarded,
as the source discards them at line 35). -/
def topkIdx (s : Tensor2) (k : Nat) : IdxTensor2 where
  b := s.b
  n := k
  entry := fun bb i => (List.take k (sortDesc (s.entry bb) (List.range s.n))).getD i 0

/-- Embedding of `torch.topk(s, k, dim=1)`: raises when k exceeds the size
of the selected dimension. -/
def topk1 (s : Tensor2) (k : Nat) : Except String IdxTensor2 :=
  if k ≤ s.n then Except.ok (topkIdx s k) else
    Except.error ("selected index k out of range")

/-- Modelled from the spec: MAX_DETECTION_POINTS is defined in anchors.py,
which is not under src/; the spec fixes it only as the fixed positive
configuration constant `top_k (MAX_DETECTION_POINTS)`.  The concrete value
5000 is one admissible positive value; every theorem below depends on it
only through its positivity and through explicit decidable comparisons with
concrete candidate counts. -/
def MAX_DETECTION_POINTS : Nat := 5000

/-- Elementwise floor division of an index tensor
(`cls_topk_indices_all / config.num_classes`, bench.py line 36). -/
def divIdx (tk : IdxTensor2) (k : Nat) : IdxTensor2 :=
  ⟨tk.b, tk.n, fun bb i => tk.entry bb i / k⟩

/-- Elementwise remainder of an index tensor
(`cls_topk_indices_all % config.num_classes`, bench.py line 37). -/
def modIdx (tk : IdxTensor2) (k : Nat) : IdxTensor2 :=
  ⟨tk.b, tk.n, fun bb i => tk.entry bb i % k⟩

/-- Value of a successful row gather: output shape is the index shape
broadcast over the last dimension. -/
def gatherRowsT (t : Tensor3) (idx : IdxTensor2) (width : Nat) : Tensor3 :=
  ⟨idx.b, idx.n, width, fun bb i cc => t.entry bb (idx.entry bb i) cc⟩

/-- Embedding of `torch.gather(t, 1, idx.unsqueeze(2).expand(-1, -1, width))`
(bench.py lines 38-42): row gather along dimension 1 with the index
broadcast over the last dimension.  torch.gather requires the index tensor
not to exceed the input on the non-gathered dimensions and raises when any
gathered index value is out of range for dimension 1 of the input. -/
def gatherRows (t : Tensor3) (idx : IdxTensor2) (width : Nat) : Except String Tensor3 :=
  if idx.b ≤ t.b ∧ width ≤ t.c ∧
      ∀ bb, bb < idx.b → ∀ i, i < idx.n → idx.entry bb i < t.n then
    Except.ok (gatherRowsT t idx width)
  else Except.error ("index out of range in gather")

/-- Value of a successful column gather. -/
def gatherColsT (t : Tensor3) (idx : IdxTensor2) : Tensor3 :=
  ⟨idx.b, idx.n, 1, fun bb i _ => t.entry bb i (idx.entry bb i)⟩

/-- Embedding of `torch.gather(t, 2, idx.unsqueeze(2))`
(bench.py lines 43-44): column gather along dimension 2, with the same
dimension and index-range requirements as the row gather. -/
def gatherCols (t : Tensor3) (idx : IdxTensor2) : Except String Tensor3 :=
  if idx.b ≤ t.b ∧ idx.n ≤ t.n ∧
      ∀ bb, bb < idx.b → ∀ i, i < idx.n → idx.entry bb i < t.c then
    Except.ok (gatherColsT t idx)
  else Except.error ("index out of range in gather")

/-- Python attribute access `cls_outputs[0]` on an empty list raises. -/
def firstTensor : List Tensor4 → Except String Tensor4
  | [] => Except.error ("list index out of range")
  | t :: _ => Except.ok t

/-- Configuration record.  The fields through `image_size` are exactly the
attributes bench.py reads from the config object.  `match_threshold` is
Modelled from the spec: the config module is not under src/, and section 6
of the spec lists `match_threshold (default 0.5)` in the configuration
surface. -/
structure Config where
  min_level : Nat
  max_level : Nat
  num_levels : Nat
  num_classes : Nat
  num_scales : Nat
  aspect_ratios : List (Rat × Rat)
  anchor_scale : Rat
  image_size : Nat
  match_threshold : Rat

/-- Embedding of `_post_process(config, cls_outputs, box_outputs)`
(bench.py lines 11-46).  Returns
(cls_outputs_all_after_topk, box_outputs_all_after_topk, indices_all, classes_all). -/
def postProcess (config : Config) (clsOutputs boxOutputs : List Tensor4) :
    Except String (Tensor3 × Tensor3 × IdxTensor2 × IdxTensor2) := do
  let t0 ← firstTensor clsOutputs
  let batchSize := t0.d0
  let clsAll ← concatLevels clsOutputs config.num_levels batchSize config.num_classes
  let boxAll ← concatLevels boxOutputs config.num_levels batchSize 4
  let tk ← topk1 (flat2 clsAll) MAX_DETECTION_POINTS
  let indicesAll := divIdx tk config.num_classes
  let classesAll := modIdx tk config.num_classes
  let boxTopk ← gatherRows boxAll indicesAll 4
  let clsTmp ← gatherRows clsAll indicesAll config.num_classes
  let clsTopk ← gatherCols clsTmp classesAll
  return (clsTopk, boxTopk, indicesAll, classesAll)

/-- Total concatenation of a tensor list along dimension 1 (the value
`cat1` returns on success). -/
def catListT : List Tensor3 → Tensor3
  | [] => dT3
  | t :: ts => ts.foldl cat2 t

/-- Total value of the per-level concatenation on the success path. -/
def catLevels (outputs : List Tensor4) (numLevels batchSize c : Nat) : Tensor3 :=
  catListT ((List.range numLevels).map (fun l => prTensor (outputs.getD l dT4) batchSize c))

/-- Success condition of one `permute(...).reshape(...)`. -/
def prOk (t : Tensor4) (batchSize c : Nat) : Prop :=
  0 < batchSize * c ∧ t.numel % (batchSize * c) = 0

/-- Success condition of the whole per-level concatenation. -/
def levelsOk (outputs : List Tensor4) (numLevels batchSize c : Nat) : Prop :=
  numLevels ≤ outputs.length ∧
    ∀ l, l < numLevels → prOk (outputs.getD l dT4) batchSize c

/-- Structural success condition of `postProcess`: the per-level reshapes
are legal, the flattened per-image score vector has at least
MAX_DETECTION_POINTS entries, and the concatenated box tensor has at least
as many rows as the classification tensor has anchors, so that every anchor
index the top-k selection can recover is a legal gather row.  These
conditions are sufficient for every library operation inside
`_post_process` to succeed, under any top-k tie order (when the box tensor
has fewer rows than there are classification anchors, success of the real
call instead depends on which flat indices the top-k selection happens to
pick).  Note that the conditions place no relation between the batch
dimensions of the classification and box outputs. -/
def ppWellFormed (config : Config) (clsOutputs boxOutputs : List Tensor4) : Prop :=
  0 < config.num_levels ∧
    levelsOk clsOutputs config.num_levels (clsOutputs.headD dT4).d0 config.num_classes ∧
    levelsOk boxOutputs config.num_levels (clsOutputs.headD dT4).d0 4 ∧
    MAX_DETECTION_POINTS ≤
      (catLevels clsOutputs config.num_levels (clsOutputs.headD dT4).d0
          config.num_classes).n * config.num_classes ∧
    (catLevels clsOutputs config.num_levels (clsOutputs.headD dT4).d0
        config.num_classes).n ≤
      (catLevels boxOutputs config.num_levels (clsOutputs.headD dT4).d0 4).n

instance (t : Tensor4) (b c : Nat) : Decidable (prOk t b c) := by
  unfold prOk; infer_instance

instance (outputs : List Tensor4) (n b c : Nat) : Decidable (levelsOk outputs n b c) := by
  unfold levelsOk; infer_instance

instance (config : Config) (cls box : List Tensor4) :
    Decidable (ppWellFormed config cls box) := by
  unfold ppWellFormed; infer_instance

/-- Total value of `postProcess` on the success path. -/
def ppResult (config : Config) (clsOutputs boxOutputs : List Tensor4) :
    Tensor3 × Tensor3 × IdxTensor2 × IdxTensor2 :=
  let batchSize := (clsOutputs.headD dT4).d0
  let clsAll := catLevels clsOutputs config.num_levels batchSize config.num_classes
  let boxAll := catLevels boxOutputs config.num_levels batchSize 4
  let tk := topkIdx (flat2 clsAll) MAX_DETECTION_POINTS
  let indicesAll := divIdx tk config.num_classes
  let classesAll := modIdx tk config.num_classes
  (gatherColsT (gatherRowsT clsAll indicesAll config.num_classes) classesAll,
    gatherRowsT boxAll indicesAll 4, indicesAll, classesAll)

/-- The flat anchor positions occupied by the levels preceding level l in
the concatenated tensor. -/
def levelOffset (outputs : List Tensor4) (batchSize c l : Nat) : Nat :=
  (((List.range l).map (fun l2 => (prTensor (outputs.getD l2 dT4) batchSize c).n))).sum

/-- Boolean success test on an Except value. -/
def exceptIsOk : Except String α → Bool
  | Except.ok _ => true
  | Except.error _ => false

/-- Value of an Except, with a default on error. -/
def okOr (e : Except String α) (d : α) : α :=
  match e with
  | Except.ok a => a
  | Except.error _ => d

/-- The flattening order the claim asserts, applied to one level tensor read
with the layout the external-interface contract declares,
[batch, height, width, anchorsPerCell * numClasses]: the per-image candidate
vector entry at anchor position n = (h * width + w) * A + a and class index c
is the input entry at (b, h, w, a * numClasses + c).  This definition follows
the words of the spec (sections 4.1 and 6), for comparison with the
source-derived flattening. -/
def specLevelFlatten (t : Tensor4) (A numClasses b n c : Nat) : Int :=
  t.entry b (n / (t.d2 * A)) ((n / A) % t.d2) ((n % A) * numClasses + c)

/-- A box with rational coordinates (y1, x1, y2, x2). -/
abbrev QBox := Rat × Rat × Rat × Rat

/-- A batch of input images: the batch size (`x.shape[0]`) plus abstract
pixel data. -/
structure ImageBatch where
  size : Nat
  data : Nat → Int

/-- Modelled from the spec: the anchor set built by `Anchors(...)` in
anchors.py, which is not under src/.  Per section 4.1 it is a pure function
of exactly the six configuration values the benches pass, holding the
ordered sequence of anchor boxes.  The geometric generation function is a
parameter (`AnchorGeometry`) since its formula involves irrational octave
scaling and no claim depends on the coordinates it produces. -/
structure Anchors where
  min_level : Nat
  max_level : Nat
  num_scales : Nat
  aspect_ratios : List (Rat × Rat)
  anchor_scale : Rat
  image_size : Nat
  boxes : Nat → QBox

/-- Signature of the anchor-geometry generator abstracted out of
`Anchors.build`. -/
abbrev AnchorGeometry :=
  Nat → Nat → Nat → List (Rat × Rat) → Rat → Nat → Nat → QBox

/-- Embedding of the constructor call
`Anchors(config.min_level, config.max_level, config.num_scales,
config.aspect_ratios, config.anchor_scale, config.image_size)`. -/
def Anchors.build (geom : AnchorGeometry) (minLevel maxLevel numScales : Nat)
    (aspects : List (Rat × Rat)) (anchorScale : Rat) (imageSize : Nat) : Anchors :=
  ⟨minLevel, maxLevel, numScales, aspects, anchorScale, imageSize,
    geom minLevel maxLevel numScales aspects anchorScale imageSize⟩

/-- Modelled from the spec: `AnchorLabeler` (anchors.py, not under src/).
Per section 4.2 it holds the shared anchor set, the class count and the
match threshold; its `label_anchors` method is a pure per-image function,
abstracted as a parameter (`LabelFn`) since no claim depends on the IoU
matching itself. -/
structure AnchorLabeler where
  anchors : Anchors
  num_classes : Nat
  match_threshold : Rat

/-- Signature of the pure per-image labeling function
`label_anchors(gt_boxes, gt_labels) -> (cls_targets, box_targets, num_positives)`. -/
abbrev LabelFn := AnchorLabeler → List QBox → List Int → List Int × List QBox × Nat

/-- The per-image labeling loop shared by the training bench forwards
(bench.py lines 88-96, 125-133, 162-170): one `label_anchors` call per image,
the three result components collected into
(cls_targets, box_targets, num_positives). -/
def labelTargets (label : LabelFn) (labeler : AnchorLabeler) (x : ImageBatch)
    (gt_boxes : List (List QBox)) (gt_labels : List (List Int)) :
    List (List Int) × List (List QBox) × List Nat :=
  let targets := (List.range x.size).map (fun i =>
    label labeler (gt_boxes.getD i []) (gt_labels.getD i []))
  (targets.map (fun t => t.1), targets.map (fun t => t.2.1), targets.map (fun t => t.2.2))

/-- Signature of an abstract per-image loss term: raw per-level outputs,
all per-image targets and positive counts, and the image index. -/
abbrev PerImageLoss :=
  List Tensor4 → List Tensor4 → List (List Int) → List (List QBox) → List Nat → Nat → Rat

/-- Modelled from the spec: the box-loss contribution of image i inside the
loss engine (section 4.5): when a per-image has_box mask is supplied, the
contribution of an image whose mask entry is false is zero; without a mask
it is the computed per-image box loss. -/
def boxLossContribution (boxL : Nat → Rat) (hasBox : Option (Nat → Bool)) (i : Nat) : Rat :=
  match hasBox with
  | none => boxL i
  | some m => if m i then boxL i else 0

/-- Modelled from the spec: `DetectionLoss` (loss.py, not under src/).
The benches construct it from the configuration alone. -/
structure DetectionLoss where
  config : Config

/-- Modelled from the spec: the call
`loss_fn(cls_outputs, box_outputs, cls_targets, box_targets, num_positives, has_box=...)`
(section 4.5): per-image classification and box losses (abstract parameters
clsL and boxL), each summed over the batch with has_box masking applied to
the box terms, averaged over the batch; returns
(total_loss, classification_loss, box_loss). -/
def DetectionLoss.apply (_L : DetectionLoss) (clsL boxL : PerImageLoss)
    (clsOut boxOut : List Tensor4) (clsT : List (List Int)) (boxT : List (List QBox))
    (numPos : List Nat) (hasBox : Option (Nat → Bool)) : Rat × Rat × Rat :=
  let batch := clsT.length
  let clsLoss :=
    (((List.range batch).map (fun i => clsL clsOut boxOut clsT boxT numPos i))).sum / batch
  let boxLoss :=
    (((List.range batch).map
        (boxLossContribution (fun i => boxL clsOut boxOut clsT boxT numPos i) hasBox))).sum / batch
  (clsLoss + boxLoss, clsLoss, boxLoss)

/-- Signature of the abstract whole-image classification-head loss of the
combined variant (section 4.5). -/
abbrev HeadLossFn := Tensor2 → List Int → Rat

/-- Modelled from the spec: `DetectionClassificationLoss` (loss.py, not
under src/). -/
structure DetectionClassificationLoss where
  config : Config

/-- Modelled from the spec: the combined loss call adds the auxiliary
classification-head loss to the detection loss and reports it as a fourth
component. -/
def DetectionClassificationLoss.apply (L : DetectionClassificationLoss)
    (clsL boxL : PerImageLoss) (headL : HeadLossFn)
    (clsOut boxOut : List Tensor4) (headOut : Tensor2)
    (clsT : List (List Int)) (boxT : List (List QBox)) (gtCls : List Int)
    (numPos : List Nat) (hasBox : Option (Nat → Bool)) : Rat × Rat × Rat × Rat :=
  let base := DetectionLoss.apply ⟨L.config⟩ clsL boxL clsOut boxOut clsT boxT numPos hasBox
  let head := headL headOut gtCls
  (base.1 + head, base.2.1, base.2.2, head)

/-- Signature of the abstract box decoder inside generate_detections
(section 4.4 step 1): per-image class scores are not consumed; it maps the
per-image box slice, the anchor boxes and the selected anchor indices to
decoded boxes in network-input coordinates. -/
abbrev DecodeFn := (Nat → Nat → Int) → (Nat → QBox) → (Nat → Nat) → List QBox

/-- Signature of the abstract per-class suppression and padding stage
(section 4.4 steps 3-4), consuming the per-image scores, the rescaled
boxes and the class indices. -/
abbrev SuppressFn := (Nat → Nat → Int) → List QBox → (Nat → Nat) → List QBox

/-- Division of every coordinate of a box by the image scale
(section 4.4 step 2). -/
def scaleBox (s : Rat) (bx : QBox) : QBox :=
  (bx.1 / s, bx.2.1 / s, bx.2.2.1 / s, bx.2.2.2 / s)

/-- Modelled from the spec: `generate_detections` (anchors.py, not under
src/).  Per section 4.4: decode the selected candidates against the anchor
set, divide the coordinates by image_scale to map back to original-image
coordinates, then suppress and pad.  Decode and suppression are abstract
parameters; the rescale step is explicit since claim C10 is about it. -/
def generate_detections (decode : DecodeFn) (suppress : SuppressFn)
    (clsOut boxOut : Nat → Nat → Int) (anchorBoxes : Nat → QBox)
    (indices classes : Nat → Nat) (imageScale : Rat) : List QBox :=
  suppress clsOut ((decode boxOut anchorBoxes indices).map (scaleBox imageScale)) classes

/-- Result of a training bench forward call: the loss tuple, optionally
preceded by the stacked per-image diagnostic detections. -/
inductive TrainOut where
  | justLosses : Rat × Rat × Rat → TrainOut
  | preds : List (List QBox) → Rat × Rat × Rat → TrainOut

/-- Result of a DetBenchTrainClsAndDet forward call. -/
inductive ClsDetOut where
  | justLosses : Rat × Rat × Rat × Rat → ClsDetOut
  | preds : List (List QBox) → Tensor2 → Rat × Rat × Rat × Rat → ClsDetOut

/-- Embedding of class DetBenchEval (bench.py lines 49-69). -/
structure DetBenchEval where
  config : Config
  model : ImageBatch → List Tensor4 × List Tensor4
  anchors : Anchors

/-- Embedding of DetBenchEval.__init__. -/
def DetBenchEval.build (geom : AnchorGeometry)
    (model : ImageBatch → List Tensor4 × List Tensor4) (config : Config) : DetBenchEval :=
  { config := config, model := model,
    anchors := Anchors.build geom config.min_level config.max_level config.num_scales
      config.aspect_ratios config.anchor_scale config.image_size }

/-- Embedding of DetBenchEval.forward (bench.py lines 59-69).  The bench
object is threaded through and returned so that the absence of any attribute
assignment in the method body is visible in the result. -/
def DetBenchEval.forward (decode : DecodeFn) (suppress : SuppressFn)
    (bench : DetBenchEval) (x : ImageBatch) (image_scales : Nat → Rat) :
    Except String (List (List QBox)) × DetBenchEval :=
  let out : Except String (List (List QBox)) := do
    let (class_out0, box_out0) := bench.model x
    let (class_out, box_out, indices, classes) ←
      postProcess bench.config class_out0 box_out0
    return (List.range x.size).map (fun i =>
      generate_detections decode suppress
        (fun p q => class_out.entry i p q) (fun p q => box_out.entry i p q)
        bench.anchors.boxes (fun p => indices.entry i p) (fun p => classes.entry i p)
        (image_scales i))
  (out, bench)

/-- Embedding of class DetBenchTrain (bench.py lines 72-107). -/
structure DetBenchTrain where
  config : Config
  model : ImageBatch → List Tensor4 × List Tensor4
  anchors : Anchors
  anchor_labeler : AnchorLabeler
  loss_fn : DetectionLoss

/-- Embedding of DetBenchTrain.__init__ (bench.py lines 73-82): the anchor
set is built once, the labeler shares it and receives the literal
match_threshold=0.5, and the loss is built from the configuration. -/
def DetBenchTrain.build (geom : AnchorGeometry)
    (model : ImageBatch → List Tensor4 × List Tensor4) (config : Config) : DetBenchTrain :=
  let anchors := Anchors.build geom config.min_level config.max_level config.num_scales
    config.aspect_ratios config.anchor_scale config.image_size
  { config := config, model := model, anchors := anchors,
    anchor_labeler := ⟨anchors, config.num_classes, (1 : Rat) / 2⟩,
    loss_fn := ⟨config⟩ }

/-- Embedding of DetBenchTrain.forward (bench.py lines 84-107). -/
def DetBenchTrain.forward (label : LabelFn) (clsL boxL : PerImageLoss)
    (decode : DecodeFn) (suppress : SuppressFn) (bench : DetBenchTrain)
    (x : ImageBatch) (gt_boxes : List (List QBox)) (gt_labels : List (List Int))
    (include_pred : Bool) : Except String TrainOut × DetBenchTrain :=
  let out : Except String TrainOut := do
    let (class_out, box_out) := bench.model x
    let (class_out_pred, box_out_pred, indices, classes) ←
      postProcess bench.config class_out box_out
    let targets := labelTargets label bench.anchor_labeler x gt_boxes gt_labels
    let losses := bench.loss_fn.apply clsL boxL class_out box_out
      targets.1 targets.2.1 targets.2.2 none
    if include_pred then
      let batch_detections := (List.range x.size).map (fun i =>
        generate_detections decode suppress
          (fun p q => class_out_pred.entry i p q) (fun p q => box_out_pred.entry i p q)
          bench.anchors.boxes (fun p => indices.entry i p) (fun p => classes.entry i p) 1)
      return TrainOut.preds batch_detections losses
    else
      return TrainOut.justLosses losses
  (out, bench)

/-- Embedding of class DetBenchTrain0Box (bench.py lines 109-144). -/
structure DetBenchTrain0Box where
  config : Config
  model : ImageBatch → List Tensor4 × List Tensor4
  anchors : Anchors
  anchor_labeler : AnchorLabeler
  loss_fn : DetectionLoss

/-- Embedding of DetBenchTrain0Box.__init__ (bench.py lines 110-119). -/
def DetBenchTrain0Box.build (geom : AnchorGeometry)
    (model : ImageBatch → List Tensor4 × List Tensor4) (config : Config) : DetBenchTrain0Box :=
  let anchors := Anchors.build geom config.min_level config.max_level config.num_scales
    config.aspect_ratios config.anchor_scale config.image_size
  { config := config, model := model, anchors := anchors,
    anchor_labeler := ⟨anchors, config.num_classes, (1 : Rat) / 2⟩,
    loss_fn := ⟨config⟩ }

/-- Embedding of DetBenchTrain0Box.forward (bench.py lines 121-144): same as
DetBenchTrain.forward with the per-image has_box mask handed to the loss. -/
def DetBenchTrain0Box.forward (label : LabelFn) (clsL boxL : PerImageLoss)
    (decode : DecodeFn) (suppress : SuppressFn) (bench : DetBenchTrain0Box)
    (x : ImageBatch) (gt_boxes : List (List QBox)) (gt_labels : List (List Int))
    (has_box : Nat → Bool) (include_pred : Bool) :
    Except String TrainOut × DetBenchTrain0Box :=
  let out : Except String TrainOut := do
    let (class_out, box_out) := bench.model x
    let (class_out_pred, box_out_pred, indices, classes) ←
      postProcess bench.config class_out box_out
    let targets := labelTargets label bench.anchor_labeler x gt_boxes gt_labels
    let losses := bench.loss_fn.apply clsL boxL class_out box_out
      targets.1 targets.2.1 targets.2.2 (some has_box)
    if include_pred then
      let batch_detections := (List.range x.size).map (fun i =>
        generate_detections decode suppress
          (fun p q => class_out_pred.entry i p q) (fun p q => box_out_pred.entry i p q)
          bench.anchors.boxes (fun p => indices.entry i p) (fun p => classes.entry i p) 1)
      return TrainOut.preds batch_detections losses
    else
      return TrainOut.justLosses losses
  (out, bench)

/-- Embedding of class DetBenchTrainClsAndDet (bench.py lines 146-181). -/
structure DetBenchTrainClsAndDet where
  config : Config
  model : ImageBatch → List Tensor4 × List Tensor4 × Tensor2
  anchors : Anchors
  anchor_labeler : AnchorLabeler
  loss_fn : DetectionClassificationLoss

/-- Embedding of DetBenchTrainClsAndDet.__init__ (bench.py lines 147-156). -/
def DetBenchTrainClsAndDet.build (geom : AnchorGeometry)
    (model : ImageBatch → List Tensor4 × List Tensor4 × Tensor2) (config : Config) :
    DetBenchTrainClsAndDet :=
  let anchors := Anchors.build geom config.min_level config.max_level config.num_scales
    config.aspect_ratios config.anchor_scale config.image_size
  { config := config, model := model, anchors := anchors,
    anchor_labeler := ⟨anchors, config.num_classes, (1 : Rat) / 2⟩,
    loss_fn := ⟨config⟩ }

/-- Embedding of DetBenchTrainClsAndDet.forward (bench.py lines 158-181). -/
def DetBenchTrainClsAndDet.forward (label : LabelFn) (clsL boxL : PerImageLoss)
    (headL : HeadLossFn) (decode : DecodeFn) (suppress : SuppressFn)
    (bench : DetBenchTrainClsAndDet) (x : ImageBatch)
    (gt_boxes : List (List QBox)) (gt_labels : List (List Int))
    (gt_classifications : List Int) (has_box : Nat → Bool) (include_pred : Bool) :
    Except String ClsDetOut × DetBenchTrainClsAndDet :=
  let out : Except String ClsDetOut := do
    let (class_out, box_out, classification_out) := bench.model x
    let (class_out_pred, box_out_pred, indices, classes) ←
      postProcess bench.config class_out box_out
    let targets := labelTargets label bench.anchor_labeler x gt_boxes gt_labels
    let losses := bench.loss_fn.apply clsL boxL headL class_out box_out
      classification_out targets.1 targets.2.1 gt_classifications
      targets.2.2 (some has_box)
    if include_pred then
      let batch_detections := (List.range x.size).map (fun i =>
        generate_detections decode suppress
          (fun p q => class_out_pred.entry i p q) (fun p q => box_out_pred.entry i p q)
          bench.anchors.boxes (fun p => indices.entry i p) (fun p => classes.entry i p) 1)
      return ClsDetOut.preds batch_detections classification_out losses
    else
      return ClsDetOut.justLosses losses
  (out, bench)

/-! ### Concrete inputs used by the witnesses and counterexamples -/

/-- A level tensor read with the layout the interface contract declares
(NHWC): batch 1, height 2, width 1, anchorsPerCell * numClasses = 2. -/
def c1nhwcT : Tensor4 := ⟨1, 2, 1, 2, fun _ x _ z => 10 * x + z⟩

/-- A channels-first level tensor: batch 1, channels 2 (one anchor variant,
two classes), height 1, width 1. -/
def c1nchwT : Tensor4 := ⟨1, 2, 1, 1, fun _ k _ _ => 100 * k + 7⟩

def c2cfg : Config := ⟨3, 7, 1, 10, 3, [], 1, 512, 1 / 2⟩

def c2cls : List Tensor4 := [⟨1, 10, 32, 32, fun _ k i j => Int.ofNat (k + i + j)⟩]

def c2box : List Tensor4 := [⟨1, 4, 32, 32, fun _ _ _ _ => 0⟩]

def c3cfg : Config := ⟨3, 7, 1, 2, 3, [], 1, 512, 1 / 2⟩

def c3cls : List Tensor4 := [⟨1, 2, 1, 1, fun _ _ _ _ => 0⟩]

def c3box : List Tensor4 := [⟨1, 4, 1, 1, fun _ _ _ _ => 0⟩]

def c3wcfg : Config := ⟨3, 7, 1, 20, 3, [], 1, 512, 1 / 2⟩

def c3wcls : List Tensor4 := [⟨1, 20, 16, 16, fun _ k i j => Int.ofNat (2 * k + i * j)⟩]

def c3wbox : List Tensor4 := [⟨1, 4, 16, 16, fun _ _ _ _ => 1⟩]

def c4cfg : Config := ⟨3, 7, 2, 10, 3, [], 1, 512, 1 / 2⟩

def c4cls : List Tensor4 :=
  [⟨1, 10, 32, 32, fun _ k i j => Int.ofNat (k + i + j)⟩,
   ⟨1, 10, 16, 16, fun _ k i j => Int.ofNat (k * i + j)⟩]

def c4box : List Tensor4 :=
  [⟨1, 4, 32, 32, fun _ _ _ _ => 2⟩, ⟨1, 4, 16, 16, fun _ _ _ _ => 3⟩]

/-- A configuration whose (spec-level) match_threshold differs from 0.5. -/
def c8cfg : Config := ⟨3, 7, 5, 90, 3, [(1, 1)], 4, 512, 7 / 10⟩

/-- Trivial concrete instantiations of the abstract parameters, used by the
witnesses of the bench claims. -/
def trivGeom : AnchorGeometry := fun _ _ _ _ _ _ _ => ((0 : Rat), (0 : Rat), (0 : Rat), (0 : Rat))

theorem ok_bind {α β : Type} (a : α) (f : α → Except String β) :
    (Except.ok a >>= f : Except String β) = f a := rfl

theorem mapExcept_ok (f : Nat → Except String Tensor3) (g : Nat → Tensor3) :
    ∀ xs : List Nat, (∀ x ∈ xs, f x = Except.ok (g x)) →
      mapExcept f xs = Except.ok (xs.map g)
  | [], _ => rfl
  | x :: xs, h => by
    have hx := h x (List.mem_cons_self x xs)
    have ih := mapExcept_ok f g xs (fun y hy => h y (List.mem_cons_of_mem x hy))
    simp only [mapExcept, hx, ih, ok_bind, List.map_cons]
    rfl

theorem catAux_ok : ∀ (ts : List Tensor3) (acc : Tensor3),
    (∀ t ∈ ts, t.b = acc.b ∧ t.c = acc.c) →
      catAux acc ts = Except.ok (ts.foldl cat2 acc)
  | [], _, _ => rfl
  | t :: ts, acc, h => by
    have ht := h t (List.mem_cons_self t ts)
    have ih := catAux_ok ts (cat2 acc t) (fun u hu => h u (List.mem_cons_of_mem t hu))
    simp only [catAux, List.foldl_cons]
    rw [if_pos ht, ih]

theorem foldl_cat2_b : ∀ (ts : List Tensor3) (acc : Tensor3), (ts.foldl cat2 acc).b = acc.b
  | [], _ => rfl
  | t :: ts, acc => foldl_cat2_b ts (cat2 acc t)

theorem foldl_cat2_c : ∀ (ts : List Tensor3) (acc : Tensor3), (ts.foldl cat2 acc).c = acc.c
  | [], _ => rfl
  | t :: ts, acc => foldl_cat2_c ts (cat2 acc t)

theorem foldl_cat2_n : ∀ (ts : List Tensor3) (acc : Tensor3),
    (ts.foldl cat2 acc).n = acc.n + (ts.map Tensor3.n).sum
  | [], _ => by simp
  | t :: ts, acc => by
    rw [List.foldl_cons, foldl_cat2_n ts (cat2 acc t)]
    show acc.n + t.n + _ = _
    simp only [List.map_cons, List.sum_cons]
    omega

theorem foldl_cat2_entry_below : ∀ (ts : List Tensor3) (acc : Tensor3) (bb nn cc : Nat),
    nn < acc.n → (ts.foldl cat2 acc).entry bb nn cc = acc.entry bb nn cc
  | [], _, _, _, _, _ => rfl
  | t :: ts, acc, bb, nn, cc, hlt => by
    rw [List.foldl_cons, foldl_cat2_entry_below ts (cat2 acc t) bb nn cc
      (Nat.lt_of_lt_of_le hlt (Nat.le_add_right _ _))]
    show (if nn < acc.n then _ else _) = _
    rw [if_pos hlt]

theorem foldl_cat2_entry : ∀ (ts : List Tensor3) (acc : Tensor3) (l : Nat),
    l < ts.length → ∀ (m bb cc : Nat), m < (ts.getD l dT3).n →
    (ts.foldl cat2 acc).entry bb (acc.n + ((ts.take l).map Tensor3.n).sum + m) cc
      = (ts.getD l dT3).entry bb m cc
  | [], _, l, hl, _, _, _, _ => absurd hl (by simp)
  | t :: ts, acc, 0, _, m, bb, cc, hm => by
    simp only [List.getD_cons_zero] at hm ⊢
    simp only [List.take_zero, List.map_nil, List.sum_nil, Nat.add_zero, List.foldl_cons]
    rw [foldl_cat2_entry_below ts (cat2 acc t) bb (acc.n + m) cc
      (show acc.n + m < acc.n + t.n by omega)]
    show (if acc.n + m < acc.n then _ else _) = _
    rw [if_neg (by omega)]
    congr 1
    omega
  | t :: ts, acc, l + 1, hl, m, bb, cc, hm => by
    simp only [List.getD_cons_succ] at hm ⊢
    rw [List.foldl_cons]
    have ih := foldl_cat2_entry ts (cat2 acc t) l (by simpa using hl) m bb cc hm
    have heq : acc.n + (((t :: ts).take (l + 1)).map Tensor3.n).sum + m
        = (cat2 acc t).n + ((ts.take l).map Tensor3.n).sum + m := by
      simp only [List.take_succ_cons, List.map_cons, List.sum_cons, cat2]
      omega
    rw [heq, ih]

theorem catListT_c (c0 : Nat) : ∀ ts : List Tensor3, ts ≠ [] → (∀ t ∈ ts, t.c = c0) →
    (catListT ts).c = c0
  | [], hne, _ => absurd rfl hne
  | t :: ts, _, h => by
    show (ts.foldl cat2 t).c = c0
    rw [foldl_cat2_c]
    exact h t (List.mem_cons_self t ts)

theorem catLevels_c (outputs : List Tensor4) (numLevels batchSize c : Nat)
    (hn : 0 < numLevels) : (catLevels outputs numLevels batchSize c).c = c := by
  apply catListT_c
  · intro he
    have : ((List.range numLevels).map
        (fun l => prTensor (outputs.getD l dT4) batchSize c)).length = numLevels := by simp
    rw [he] at this
    simp at this
    omega
  · intro t ht
    obtain ⟨l, _, rfl⟩ := List.mem_map.mp ht
    rfl

theorem catListT_b (b0 : Nat) : ∀ ts : List Tensor3, ts ≠ [] → (∀ t ∈ ts, t.b = b0) →
    (catListT ts).b = b0
  | [], hne, _ => absurd rfl hne
  | t :: ts, _, h => by
    show (ts.foldl cat2 t).b = b0
    rw [foldl_cat2_b]
    exact h t (List.mem_cons_self t ts)

theorem catLevels_b (outputs : List Tensor4) (numLevels batchSize c : Nat)
    (hn : 0 < numLevels) : (catLevels outputs numLevels batchSize c).b = batchSize := by
  apply catListT_b
  · intro he
    have hlen : ((List.range numLevels).map
        (fun l => prTensor (outputs.getD l dT4) batchSize c)).length = numLevels := by simp
    rw [he] at hlen
    simp at hlen
    omega
  · intro t ht
    obtain ⟨l, _, rfl⟩ := List.mem_map.mp ht
    rfl

theorem length_insertDesc (score : Nat → Int) (x : Nat) :
    ∀ l : List Nat, (insertDesc score x l).length = l.length + 1
  | [] => rfl
  | y :: ys => by
    rw [insertDesc]
    by_cases h : score y ≤ score x
    · rw [if_pos h]
      rfl
    · rw [if_neg h]
      simp [length_insertDesc score x ys]

theorem length_sortDesc (score : Nat → Int) :
    ∀ l : List Nat, (sortDesc score l).length = l.length
  | [] => rfl
  | x :: xs => by
    rw [sortDesc, length_insertDesc, length_sortDesc score xs]
    rfl

theorem mem_insertDesc (score : Nat → Int) (x y : Nat) :
    ∀ l : List Nat, y ∈ insertDesc score x l → y = x ∨ y ∈ l
  | [], h => by
    rw [insertDesc] at h
    exact Or.inl (List.mem_singleton.mp h)
  | z :: zs, h => by
    rw [insertDesc] at h
    by_cases hc : score z ≤ score x
    · rw [if_pos hc] at h
      simpa using h
    · rw [if_neg hc] at h
      rcases List.mem_cons.mp h with h1 | h2
      · exact Or.inr (h1 ▸ List.mem_cons_self z zs)
      · rcases mem_insertDesc score x y zs h2 with h3 | h4
        · exact Or.inl h3
        · exact Or.inr (List.mem_cons_of_mem z h4)

theorem mem_sortDesc (score : Nat → Int) :
    ∀ l : List Nat, ∀ y, y ∈ sortDesc score l → y ∈ l
  | [], y, h => by
    rw [sortDesc] at h
    exact absurd h (List.not_mem_nil y)
  | x :: xs, y, h => by
    rw [sortDesc] at h
    rcases mem_insertDesc score x y (sortDesc score xs) h with h1 | h2
    · exact h1 ▸ List.mem_cons_self x xs
    · exact List.mem_cons_of_mem x (mem_sortDesc score xs y h2)

theorem topkIdx_entry_lt (s : Tensor2) (k : Nat) (hk : k ≤ s.n) (bb i : Nat)
    (hi : i < k) : (topkIdx s k).entry bb i < s.n := by
  show (List.take k (sortDesc (s.entry bb) (List.range s.n))).getD i 0 < s.n
  have hlen : (List.take k (sortDesc (s.entry bb) (List.range s.n))).length = k := by
    rw [List.length_take, length_sortDesc, List.length_range]
    omega
  have hilt : i < (List.take k (sortDesc (s.entry bb) (List.range s.n))).length := by
    omega
  rw [List.getD_eq_getElem _ _ hilt]
  have hmem : (List.take k (sortDesc (s.entry bb) (List.range s.n)))[i]
      ∈ List.take k (sortDesc (s.entry bb) (List.range s.n)) := List.getElem_mem hilt
  have hmem2 : (List.take k (sortDesc (s.entry bb) (List.range s.n)))[i]
      ∈ sortDesc (s.entry bb) (List.range s.n) := List.take_subset k _ hmem
  have hmem3 := mem_sortDesc (s.entry bb) (List.range s.n) _ hmem2
  exact List.mem_range.mp hmem3

theorem concatLevels_ok (outputs : List Tensor4) (numLevels batchSize c : Nat)
    (hn : 0 < numLevels) (h : levelsOk outputs numLevels batchSize c) :
    concatLevels outputs numLevels batchSize c
      = Except.ok (catLevels outputs numLevels batchSize c) := by
  obtain ⟨hlen, hal⟩ := h
  have hmap : mapExcept (levelSlice outputs batchSize c) (List.range numLevels)
      = Except.ok ((List.range numLevels).map
          (fun l => prTensor (outputs.getD l dT4) batchSize c)) := by
    apply mapExcept_ok
    intro l hl
    have hl2 : l < numLevels := List.mem_range.mp hl
    have hlt : l < outputs.length := Nat.lt_of_lt_of_le hl2 hlen
    have hget : outputs.get? l = some (outputs.getD l dT4) := by
      rw [List.getD_eq_getElem outputs dT4 hlt]
      exact List.get?_eq_getElem? _ _ ▸ (List.getElem?_eq_getElem hlt)
    simp only [levelSlice, hget, permuteReshape]
    exact if_pos (hal l hl2)
  simp only [concatLevels, hmap, ok_bind]
  have hne : ((List.range numLevels).map
      (fun l => prTensor (outputs.getD l dT4) batchSize c)) ≠ [] := by
    intro he
    have h2 : ((List.range numLevels).map
        (fun l => prTensor (outputs.getD l dT4) batchSize c)).length = numLevels := by simp
    rw [he] at h2
    simp at h2
    omega
  match hm : ((List.range numLevels).map
      (fun l => prTensor (outputs.getD l dT4) batchSize c)), hne with
  | t :: ts, _ =>
    have htmem : t ∈ ((List.range numLevels).map
        (fun l => prTensor (outputs.getD l dT4) batchSize c)) := by
      rw [hm]; exact List.mem_cons_self t ts
    obtain ⟨l0, _, hteq⟩ := List.mem_map.mp htmem
    rw [cat1, catAux_ok ts t (fun u hu => by
      have hmem : u ∈ ((List.range numLevels).map
          (fun l => prTensor (outputs.getD l dT4) batchSize c)) := by
        rw [hm]; exact List.mem_cons_of_mem t hu
      obtain ⟨l, _, rfl⟩ := List.mem_map.mp hmem
      rw [← hteq]
      exact ⟨rfl, rfl⟩)]
    rw [catLevels, hm]
    rfl

theorem postProcess_ok (config : Config) (cls box : List Tensor4)
    (h : ppWellFormed config cls box) :
    postProcess config cls box = Except.ok (ppResult config cls box) := by
  obtain ⟨hn, hclsOk, hboxOk, htk, hle⟩ := h
  cases cls with
  | nil =>
    exfalso
    have hl := hclsOk.1
    simp at hl
    omega
  | cons t0 rest =>
    have hC : 0 < config.num_classes := by
      have hBC := (hclsOk.2 0 hn).1
      rcases Nat.eq_zero_or_pos config.num_classes with h0 | h1
      · rw [h0, Nat.mul_zero] at hBC
        omega
      · exact h1
    have hcatCls := concatLevels_ok (t0 :: rest) config.num_levels t0.d0
      config.num_classes hn hclsOk
    have hcatBox := concatLevels_ok box config.num_levels t0.d0 4 hn hboxOk
    have hc := catLevels_c (t0 :: rest) config.num_levels t0.d0 config.num_classes hn
    have hb := catLevels_b (t0 :: rest) config.num_levels t0.d0 config.num_classes hn
    have hbBox := catLevels_b box config.num_levels t0.d0 4 hn
    have hcBox := catLevels_c box config.num_levels t0.d0 4 hn
    have hkle : MAX_DETECTION_POINTS ≤ (flat2 (catLevels (t0 :: rest) config.num_levels
        t0.d0 config.num_classes)).n := by
      show MAX_DETECTION_POINTS ≤ (catLevels (t0 :: rest) config.num_levels t0.d0
        config.num_classes).n * (catLevels (t0 :: rest) config.num_levels t0.d0
          config.num_classes).c
      rw [hc]
      exact htk
    have htopk : topk1 (flat2 (catLevels (t0 :: rest) config.num_levels t0.d0
        config.num_classes)) MAX_DETECTION_POINTS
        = Except.ok (topkIdx (flat2 (catLevels (t0 :: rest) config.num_levels t0.d0
            config.num_classes)) MAX_DETECTION_POINTS) := by
      rw [topk1, if_pos]
      exact hkle
    have hdivlt : ∀ bb i, i < MAX_DETECTION_POINTS →
        (topkIdx (flat2 (catLevels (t0 :: rest) config.num_levels t0.d0
          config.num_classes)) MAX_DETECTION_POINTS).entry bb i / config.num_classes
          < (catLevels (t0 :: rest) config.num_levels t0.d0 config.num_classes).n := by
      intro bb i hi
      have h1 := topkIdx_entry_lt (flat2 (catLevels (t0 :: rest) config.num_levels t0.d0
        config.num_classes)) MAX_DETECTION_POINTS hkle bb i hi
      have h2 : (flat2 (catLevels (t0 :: rest) config.num_levels t0.d0
          config.num_classes)).n
          = (catLevels (t0 :: rest) config.num_levels t0.d0 config.num_classes).n
            * config.num_classes := by
        show (catLevels (t0 :: rest) config.num_levels t0.d0 config.num_classes).n
            * (catLevels (t0 :: rest) config.num_levels t0.d0 config.num_classes).c = _
        rw [hc]
      rw [h2] at h1
      rw [Nat.div_lt_iff_lt_mul hC]
      exact h1
    have hgbox : gatherRows (catLevels box config.num_levels t0.d0 4)
        (divIdx (topkIdx (flat2 (catLevels (t0 :: rest) config.num_levels t0.d0
          config.num_classes)) MAX_DETECTION_POINTS) config.num_classes) 4
        = Except.ok (gatherRowsT (catLevels box config.num_levels t0.d0 4)
            (divIdx (topkIdx (flat2 (catLevels (t0 :: rest) config.num_levels t0.d0
              config.num_classes)) MAX_DETECTION_POINTS) config.num_classes) 4) := by
      rw [gatherRows, if_pos]
      refine ⟨?_, ?_, ?_⟩
      · show (catLevels (t0 :: rest) config.num_levels t0.d0 config.num_classes).b
          ≤ (catLevels box config.num_levels t0.d0 4).b
        rw [hb, hbBox]
      · show 4 ≤ (catLevels box config.num_levels t0.d0 4).c
        rw [hcBox]
      · intro bb _ i hi
        exact Nat.lt_of_lt_of_le (hdivlt bb i hi) hle
    have hgcls1 : gatherRows (catLevels (t0 :: rest) config.num_levels t0.d0
          config.num_classes)
        (divIdx (topkIdx (flat2 (catLevels (t0 :: rest) config.num_levels t0.d0
          config.num_classes)) MAX_DETECTION_POINTS) config.num_classes)
        config.num_classes
        = Except.ok (gatherRowsT (catLevels (t0 :: rest) config.num_levels t0.d0
            config.num_classes)
            (divIdx (topkIdx (flat2 (catLevels (t0 :: rest) config.num_levels t0.d0
              config.num_classes)) MAX_DETECTION_POINTS) config.num_classes)
            config.num_classes) := by
      rw [gatherRows, if_pos]
      refine ⟨Nat.le_refl _, ?_, ?_⟩
      · show config.num_classes ≤ (catLevels (t0 :: rest) config.num_levels t0.d0
          config.num_classes).c
        rw [hc]
      · intro bb _ i hi
        exact hdivlt bb i hi
    have hgcls2 : gatherCols (gatherRowsT (catLevels (t0 :: rest) config.num_levels t0.d0
          config.num_classes)
          (divIdx (topkIdx (flat2 (catLevels (t0 :: rest) config.num_levels t0.d0
            config.num_classes)) MAX_DETECTION_POINTS) config.num_classes)
          config.num_classes)
        (modIdx (topkIdx (flat2 (catLevels (t0 :: rest) config.num_levels t0.d0
          config.num_classes)) MAX_DETECTION_POINTS) config.num_classes)
        = Except.ok (gatherColsT (gatherRowsT (catLevels (t0 :: rest) config.num_levels
            t0.d0 config.num_classes)
            (divIdx (topkIdx (flat2 (catLevels (t0 :: rest) config.num_levels t0.d0
              config.num_classes)) MAX_DETECTION_POINTS) config.num_classes)
            config.num_classes)
            (modIdx (topkIdx (flat2 (catLevels (t0 :: rest) config.num_levels t0.d0
              config.num_classes)) MAX_DETECTION_POINTS) config.num_classes)) := by
      rw [gatherCols, if_pos]
      refine ⟨Nat.le_refl _, Nat.le_refl _, ?_⟩
      intro bb _ i _
      exact Nat.mod_lt _ hC
    simp only [postProcess, firstTensor, ok_bind]
    rw [hcatCls]
    simp only [ok_bind]
    rw [hcatBox]
    simp only [ok_bind]
    rw [htopk]
    simp only [ok_bind]
    rw [hgbox]
    simp only [ok_bind]
    rw [hgcls1]
    simp only [ok_bind]
    rw [hgcls2]
    simp only [ok_bind]
    rfl

/-! ### Characterisation of the permuted reshape on channels-first input -/

theorem prTensor_n_nchw (t : Tensor4) (B C A : Nat) (hB : 0 < B) (hC : 0 < C)
    (hd0 : t.d0 = B) (hd1 : t.d1 = A * C) :
    (prTensor t B C).n = A * t.d2 * t.d3 := by
  show t.numel / (B * C) = A * t.d2 * t.d3
  have hnum : t.numel = B * C * (A * t.d2 * t.d3) := by
    rw [Tensor4.numel, hd0, hd1]; ring
  rw [hnum, Nat.mul_div_cancel_left _ (Nat.mul_pos hB hC)]

theorem nchw_inner_lt (d2 d3 A h w a : Nat) (hh : h < d2) (hw : w < d3) (ha : a < A) :
    (h * d3 + w) * A + a < A * d2 * d3 := by
  have h1 : h * d3 + w < d2 * d3 :=
    calc h * d3 + w < h * d3 + d3 := by omega
    _ = (h + 1) * d3 := by ring
    _ ≤ d2 * d3 := Nat.mul_le_mul_right _ (by omega)
  calc (h * d3 + w) * A + a < (h * d3 + w) * A + A := by omega
  _ = (h * d3 + w + 1) * A := by ring
  _ ≤ d2 * d3 * A := Nat.mul_le_mul_right _ (by omega)
  _ = A * d2 * d3 := by ring

theorem prEntry_nchw (t : Tensor4) (B C A : Nat) (hB : 0 < B) (hC : 0 < C)
    (hd0 : t.d0 = B) (hd1 : t.d1 = A * C)
    (h w a c bb : Nat) (hh : h < t.d2) (hw : w < t.d3) (ha : a < A) (hc : c < C) :
    (prTensor t B C).entry bb ((h * t.d3 + w) * A + a) c = t.entry bb (a * C + c) h w := by
  have hA : 0 < A := by omega
  have hd1pos : 0 < t.d1 := by rw [hd1]; exact Nat.mul_pos (by omega) hC
  have hd2 : 0 < t.d2 := by omega
  have hd3 : 0 < t.d3 := by omega
  have hr : a * C + c < t.d1 := by
    rw [hd1]
    calc a * C + c < a * C + C := by omega
    _ = (a + 1) * C := by ring
    _ ≤ A * C := Nat.mul_le_mul_right _ (by omega)
  have hmid : t.numel / (B * C) * C = t.d2 * t.d3 * t.d1 := by
    have hnum : t.numel = B * C * (A * t.d2 * t.d3) := by
      rw [Tensor4.numel, hd0, hd1]; ring
    rw [hnum, Nat.mul_div_cancel_left _ (Nat.mul_pos hB hC), hd1]; ring
  have hg : bb * (t.numel / (B * C) * C) + (((h * t.d3 + w) * A + a) * C + c)
      = t.d1 * ((bb * t.d2 + h) * t.d3 + w) + (a * C + c) := by
    rw [hmid, hd1]; ring
  show t.entry _ _ _ _ = _
  rw [hg]
  have e1 : (t.d1 * ((bb * t.d2 + h) * t.d3 + w) + (a * C + c)) % t.d1 = a * C + c := by
    rw [Nat.mul_add_mod, Nat.mod_eq_of_lt hr]
  have e2 : (t.d1 * ((bb * t.d2 + h) * t.d3 + w) + (a * C + c)) / t.d1
      = (bb * t.d2 + h) * t.d3 + w := by
    rw [Nat.mul_add_div hd1pos, Nat.div_eq_of_lt hr, Nat.add_zero]
  have e3 : ((bb * t.d2 + h) * t.d3 + w) % t.d3 = w := by
    rw [Nat.mul_comm (bb * t.d2 + h) t.d3, Nat.mul_add_mod, Nat.mod_eq_of_lt hw]
  have e4 : (t.d1 * ((bb * t.d2 + h) * t.d3 + w) + (a * C + c)) / (t.d1 * t.d3)
      = bb * t.d2 + h := by
    rw [← Nat.div_div_eq_div_mul, e2, Nat.mul_comm (bb * t.d2 + h) t.d3,
      Nat.mul_add_div hd3, Nat.div_eq_of_lt hw, Nat.add_zero]
  have e5 : (t.d1 * ((bb * t.d2 + h) * t.d3 + w) + (a * C + c)) / (t.d1 * t.d3 * t.d2)
      = bb := by
    rw [← Nat.div_div_eq_div_mul, e4, Nat.mul_comm bb t.d2,
      Nat.mul_add_div hd2, Nat.div_eq_of_lt hh, Nat.add_zero]
  have e6 : (bb * t.d2 + h) % t.d2 = h := by
    rw [Nat.mul_comm bb t.d2, Nat.mul_add_mod, Nat.mod_eq_of_lt hh]
  rw [e1, e2, e3, e4, e5, e6]

theorem catListT_entry : ∀ (ts : List Tensor3) (l : Nat), l < ts.length →
    ∀ (m bb cc : Nat), m < (ts.getD l dT3).n →
    (catListT ts).entry bb (((ts.take l).map Tensor3.n).sum + m) cc
      = (ts.getD l dT3).entry bb m cc
  | [], l, hl, _, _, _, _ => absurd hl (by simp)
  | t :: ts, 0, _, m, bb, cc, hm => by
    simp only [List.getD_cons_zero] at hm ⊢
    simp only [List.take_zero, List.map_nil, List.sum_nil, Nat.zero_add]
    show (ts.foldl cat2 t).entry bb m cc = t.entry bb m cc
    exact foldl_cat2_entry_below ts t bb m cc hm
  | t :: ts, l + 1, hl, m, bb, cc, hm => by
    simp only [List.getD_cons_succ] at hm ⊢
    simp only [List.take_succ_cons, List.map_cons, List.sum_cons]
    show (ts.foldl cat2 t).entry bb (t.n + ((ts.take l).map Tensor3.n).sum + m) cc = _
    exact foldl_cat2_entry ts t l (by simpa using hl) m bb cc hm

/-! ### Claim C1 -/

/-- C1 as stated fails on the code: feeding `_post_process` a level tensor
whose axes carry the layout the external-interface contract declares,
[batch, height, width, anchorsPerCell * numClasses], does not produce the
claimed flat ordering (rows, then columns, then anchor variant, then class).
At the concrete NHWC input c1nhwcT the flattened candidate vector entry at
anchor position 0 and class 1 is 10, while the claimed ordering demands the
input entry at (height 0, width 0, channel 1), which is 1. -/
theorem c1_counterexample :
    (okOr (concatLevels [c1nhwcT] 1 1 2) dT3).entry 0 0 1 = 10 ∧
    specLevelFlatten c1nhwcT 1 2 0 0 1 = 1 ∧
    (okOr (concatLevels [c1nhwcT] 1 1 2) dT3).entry 0 0 1
      ≠ specLevelFlatten c1nhwcT 1 2 0 0 1 := by decide

/-- C1 amended: when the per-level arrays carry the channels-first layout a
PyTorch network emits, [batch, anchorsPerCell * numClasses, height, width]
(channel index = anchor_variant * num_classes + class), the flattening and
concatenation performed by `_post_process` (lines 27-29 of bench.py,
embedded as `concatLevels`) produce a per-image candidate vector ordered
exactly as the anchor generator orders anchors: levels in increasing order,
and within a level row-major over the spatial grid, then anchor variant,
then class index.  Concretely, the concatenated tensor entry for batch bb at
row position
levelOffset + (h * width + w) * anchorsPerCell + a and column c equals the
level-l input entry at (bb, a * num_classes + c, h, w). -/
theorem c1_amended_flatten_order (outputs : List Tensor4) (numLevels B C A : Nat)
    (l h w a c bb : Nat) (t : Tensor4)
    (hn : 0 < numLevels) (hlen : numLevels ≤ outputs.length)
    (hB : 0 < B) (hC : 0 < C)
    (hdims : ∀ l2, l2 < numLevels →
      (outputs.getD l2 dT4).d0 = B ∧ C ∣ (outputs.getD l2 dT4).d1)
    (hl : l < numLevels) (ht : outputs.getD l dT4 = t) (hd1 : t.d1 = A * C)
    (hh : h < t.d2) (hw : w < t.d3) (ha : a < A) (hc : c < C) :
    concatLevels outputs numLevels B C
        = Except.ok (catLevels outputs numLevels B C) ∧
    (catLevels outputs numLevels B C).entry bb
        (levelOffset outputs B C l + ((h * t.d3 + w) * A + a)) c
      = t.entry bb (a * C + c) h w := by
  have hok : levelsOk outputs numLevels B C := by
    refine ⟨hlen, fun l2 hl2 => ?_⟩
    obtain ⟨hd0, q, hq⟩ := hdims l2 hl2
    refine ⟨Nat.mul_pos hB hC, ?_⟩
    have hnum : (outputs.getD l2 dT4).numel
        = B * C * (q * (outputs.getD l2 dT4).d2 * (outputs.getD l2 dT4).d3) := by
      rw [Tensor4.numel, hd0, hq]; ring
    rw [hnum, Nat.mul_mod_right]
  refine ⟨concatLevels_ok outputs numLevels B C hn hok, ?_⟩
  have hd0t : t.d0 = B := by rw [← ht]; exact (hdims l hl).1
  have hA : 0 < A := by omega
  -- the list of per-level reshaped tensors
  have hlenmap : l < ((List.range numLevels).map
      (fun l2 => prTensor (outputs.getD l2 dT4) B C)).length := by simpa using hl
  have hgetmap : ((List.range numLevels).map
      (fun l2 => prTensor (outputs.getD l2 dT4) B C)).getD l dT3
      = prTensor t B C := by
    rw [List.getD_eq_getElem _ _ hlenmap]
    simp only [List.getElem_map, List.getElem_range]
    rw [ht]
  have hmlt : (h * t.d3 + w) * A + a < (prTensor t B C).n := by
    rw [prTensor_n_nchw t B C A hB hC hd0t hd1]
    exact nchw_inner_lt t.d2 t.d3 A h w a hh hw ha
  have hofs : ((((List.range numLevels).map
      (fun l2 => prTensor (outputs.getD l2 dT4) B C)).take l).map Tensor3.n).sum
      = levelOffset outputs B C l := by
    rw [← List.map_take, List.take_range, Nat.min_eq_left (Nat.le_of_lt hl),
      List.map_map]
    rfl
  have hmain := catListT_entry ((List.range numLevels).map
      (fun l2 => prTensor (outputs.getD l2 dT4) B C)) l hlenmap
    ((h * t.d3 + w) * A + a) bb c (by rw [hgetmap]; exact hmlt)
  rw [hofs, hgetmap] at hmain
  rw [catLevels, hmain]
  exact prEntry_nchw t B C A hB hC hd0t hd1 h w a c bb hh hw ha hc

/-- Witness for the amended C1 at a concrete channels-first input. -/
theorem c1_witness :
    concatLevels [c1nchwT] 1 1 2 = Except.ok (catLevels [c1nchwT] 1 1 2) ∧
    (catLevels [c1nchwT] 1 1 2).entry 0
        (levelOffset [c1nchwT] 1 2 0 + ((0 * c1nchwT.d3 + 0) * 1 + 0)) 1
      = c1nchwT.entry 0 (0 * 2 + 1) 0 0 :=
  c1_amended_flatten_order [c1nchwT] 1 1 2 1 0 0 0 0 1 0 c1nchwT
    (by decide) (by decide) (by decide) (by decide) (by decide) (by decide)
    rfl rfl (by decide) (by decide) (by decide) (by decide)

/-! ### Claims C2, C3, C4, C9 -/

/-- C2: on every input satisfying the structural success condition
`ppWellFormed` the call succeeds, and for every image bb and
selected candidate i the recovered anchor index (indices_all, division by
num_classes) and class index (classes_all, modulo num_classes) satisfy
anchor_index * num_classes + class_index = original flat index delivered by
the top-k selection over the flattened score vector; the recovery is exact
integer arithmetic for every flat index. -/
theorem c2_index_recovery_exact (config : Config) (cls box : List Tensor4)
    (h : ppWellFormed config cls box) :
    postProcess config cls box = Except.ok (ppResult config cls box) ∧
    ∀ bb i,
      (ppResult config cls box).2.2.1.entry bb i * config.num_classes
          + (ppResult config cls box).2.2.2.entry bb i
        = (topkIdx (flat2 (catLevels cls config.num_levels (cls.headD dT4).d0
            config.num_classes)) MAX_DETECTION_POINTS).entry bb i := by
  refine ⟨postProcess_ok config cls box h, fun bb i => ?_⟩
  simp only [ppResult, divIdx, modIdx]
  rw [Nat.mul_comm]
  exact Nat.div_add_mod _ _

/-- Witness for C2 at a concrete well-formed input. -/
theorem c2_witness :
    postProcess c2cfg c2cls c2box = Except.ok (ppResult c2cfg c2cls c2box) ∧
    ∀ bb i,
      (ppResult c2cfg c2cls c2box).2.2.1.entry bb i * c2cfg.num_classes
          + (ppResult c2cfg c2cls c2box).2.2.2.entry bb i
        = (topkIdx (flat2 (catLevels c2cls c2cfg.num_levels (c2cls.headD dT4).d0
            c2cfg.num_classes)) MAX_DETECTION_POINTS).entry bb i :=
  c2_index_recovery_exact c2cfg c2cls c2box (by decide)

/-- C3 as stated fails on the code: at an input whose total candidate count
(2) is smaller than MAX_DETECTION_POINTS, `_post_process` does not return
MAX_DETECTION_POINTS padded candidates; the embedded `torch.topk` call
raises, so the whole call fails. -/
theorem c3_counterexample :
    exceptIsOk (postProcess c3cfg c3cls c3box) = false := by decide

/-- C3 amended: when the total candidate count (total anchors * num_classes)
is at least MAX_DETECTION_POINTS and the concatenated box tensor has at
least as many rows as there are classification anchors (so that every
recoverable anchor index is a legal gather row — the structural condition
`ppWellFormed`), `_post_process` succeeds and all four returned per-image
tensors carry exactly MAX_DETECTION_POINTS candidates; when the total
candidate count is smaller, the call fails with the top-k range error
rather than padding (see the counterexample), and there is no padding path
anywhere. -/
theorem c3_amended_topk_count (config : Config) (cls box : List Tensor4)
    (h : ppWellFormed config cls box) :
    postProcess config cls box = Except.ok (ppResult config cls box) ∧
    (ppResult config cls box).1.n = MAX_DETECTION_POINTS ∧
    (ppResult config cls box).2.1.n = MAX_DETECTION_POINTS ∧
    (ppResult config cls box).2.2.1.n = MAX_DETECTION_POINTS ∧
    (ppResult config cls box).2.2.2.n = MAX_DETECTION_POINTS :=
  ⟨postProcess_ok config cls box h, rfl, rfl, rfl, rfl⟩

/-- Witness for the amended C3 at a concrete well-formed input. -/
theorem c3_witness :
    postProcess c3wcfg c3wcls c3wbox = Except.ok (ppResult c3wcfg c3wcls c3wbox) ∧
    (ppResult c3wcfg c3wcls c3wbox).1.n = MAX_DETECTION_POINTS ∧
    (ppResult c3wcfg c3wcls c3wbox).2.1.n = MAX_DETECTION_POINTS ∧
    (ppResult c3wcfg c3wcls c3wbox).2.2.1.n = MAX_DETECTION_POINTS ∧
    (ppResult c3wcfg c3wcls c3wbox).2.2.2.n = MAX_DETECTION_POINTS :=
  c3_amended_topk_count c3wcfg c3wcls c3wbox (by decide)

/-- C4: on every input satisfying the structural success condition
`ppWellFormed` the call succeeds, and each returned candidate is
internally consistent: the returned
classification score at candidate i equals the flattened per-image score
vector entry at the flat index the top-k selection produced for i (that is,
at the recovered (anchor index, class index) pair), and the returned box
entry equals the concatenated box-regression tensor at the recovered anchor
index. -/
theorem c4_candidate_consistency (config : Config) (cls box : List Tensor4)
    (h : ppWellFormed config cls box) :
    postProcess config cls box = Except.ok (ppResult config cls box) ∧
    (∀ bb i,
      (ppResult config cls box).1.entry bb i 0
        = (flat2 (catLevels cls config.num_levels (cls.headD dT4).d0
            config.num_classes)).entry bb
              ((topkIdx (flat2 (catLevels cls config.num_levels (cls.headD dT4).d0
                config.num_classes)) MAX_DETECTION_POINTS).entry bb i)) ∧
    ∀ bb i cc,
      (ppResult config cls box).2.1.entry bb i cc
        = (catLevels box config.num_levels (cls.headD dT4).d0 4).entry bb
            ((ppResult config cls box).2.2.1.entry bb i) cc := by
  refine ⟨postProcess_ok config cls box h, fun bb i => ?_, fun bb i cc => rfl⟩
  have hc := catLevels_c cls config.num_levels (cls.headD dT4).d0 config.num_classes h.1
  simp only [ppResult, gatherColsT, gatherRowsT, divIdx, modIdx, flat2]
  rw [hc]

/-- Witness for C4 at a concrete well-formed two-level input. -/
theorem c4_witness :
    postProcess c4cfg c4cls c4box = Except.ok (ppResult c4cfg c4cls c4box) ∧
    (∀ bb i,
      (ppResult c4cfg c4cls c4box).1.entry bb i 0
        = (flat2 (catLevels c4cls c4cfg.num_levels (c4cls.headD dT4).d0
            c4cfg.num_classes)).entry bb
              ((topkIdx (flat2 (catLevels c4cls c4cfg.num_levels (c4cls.headD dT4).d0
                c4cfg.num_classes)) MAX_DETECTION_POINTS).entry bb i)) ∧
    ∀ bb i cc,
      (ppResult c4cfg c4cls c4box).2.1.entry bb i cc
        = (catLevels c4box c4cfg.num_levels (c4cls.headD dT4).d0 4).entry bb
            ((ppResult c4cfg c4cls c4box).2.2.1.entry bb i) cc :=
  c4_candidate_consistency c4cfg c4cls c4box (by decide)

/-- C6: each training bench constructs the anchor set exactly once at bench
construction (the anchors field is the one-time Anchors.build of the six
configuration values, and the anchor labeler shares that same anchor set
rather than rebuilding it), and every forward call returns the bench state
unchanged: the anchor set, the anchor labeler and the configuration are
never modified or rebuilt per call. -/
theorem c6_anchors_built_once_and_immutable (geom : AnchorGeometry) (config : Config)
    (model1 model2 : ImageBatch → List Tensor4 × List Tensor4)
    (model3 : ImageBatch → List Tensor4 × List Tensor4 × Tensor2) :
    ((DetBenchTrain.build geom model1 config).anchors
        = Anchors.build geom config.min_level config.max_level config.num_scales
            config.aspect_ratios config.anchor_scale config.image_size ∧
      (DetBenchTrain.build geom model1 config).anchor_labeler.anchors
        = (DetBenchTrain.build geom model1 config).anchors ∧
      ∀ label clsL boxL decode suppress x gtB gtL ip,
        (DetBenchTrain.forward label clsL boxL decode suppress
            (DetBenchTrain.build geom model1 config) x gtB gtL ip).2
          = DetBenchTrain.build geom model1 config) ∧
    ((DetBenchTrain0Box.build geom model2 config).anchors
        = Anchors.build geom config.min_level config.max_level config.num_scales
            config.aspect_ratios config.anchor_scale config.image_size ∧
      (DetBenchTrain0Box.build geom model2 config).anchor_labeler.anchors
        = (DetBenchTrain0Box.build geom model2 config).anchors ∧
      ∀ label clsL boxL decode suppress x gtB gtL hb ip,
        (DetBenchTrain0Box.forward label clsL boxL decode suppress
            (DetBenchTrain0Box.build geom model2 config) x gtB gtL hb ip).2
          = DetBenchTrain0Box.build geom model2 config) ∧
    ((DetBenchTrainClsAndDet.build geom model3 config).anchors
        = Anchors.build geom config.min_level config.max_level config.num_scales
            config.aspect_ratios config.anchor_scale config.image_size ∧
      (DetBenchTrainClsAndDet.build geom model3 config).anchor_labeler.anchors
        = (DetBenchTrainClsAndDet.build geom model3 config).anchors ∧
      ∀ label clsL boxL headL decode suppress x gtB gtL gtC hb ip,
        (DetBenchTrainClsAndDet.forward label clsL boxL headL decode suppress
            (DetBenchTrainClsAndDet.build geom model3 config) x gtB gtL gtC hb ip).2
          = DetBenchTrainClsAndDet.build geom model3 config) :=
  ⟨⟨rfl, rfl, fun _ _ _ _ _ _ _ _ _ => rfl⟩,
   ⟨rfl, rfl, fun _ _ _ _ _ _ _ _ _ _ => rfl⟩,
   ⟨rfl, rfl, fun _ _ _ _ _ _ _ _ _ _ _ _ => rfl⟩⟩

/-- C8 as stated fails on the code: the benches do not read the configured
match_threshold; they pass the literal 0.5 to the AnchorLabeler.  With a
configuration whose match_threshold is 0.7, the labeler built by
DetBenchTrain still uses 0.5. -/
theorem c8_counterexample :
    (DetBenchTrain.build trivGeom (fun _ => ([], [])) c8cfg).anchor_labeler.match_threshold
      = 1 / 2 ∧
    c8cfg.match_threshold = 7 / 10 ∧
    ((1 : Rat) / 2) ≠ ((7 : Rat) / 10) :=
  ⟨rfl, rfl, by norm_num⟩

/-- C8 amended: the match threshold the anchor labeler receives is the
hard-coded literal 0.5 at every bench construction — equal to the default
value 0.5 the spec documents, but independent of the configuration: it does
not track the configured match_threshold. -/
theorem c8_threshold_hardcoded (geom : AnchorGeometry) (config : Config)
    (model1 model2 : ImageBatch → List Tensor4 × List Tensor4)
    (model3 : ImageBatch → List Tensor4 × List Tensor4 × Tensor2) :
    (DetBenchTrain.build geom model1 config).anchor_labeler.match_threshold = 1 / 2 ∧
    (DetBenchTrain0Box.build geom model2 config).anchor_labeler.match_threshold = 1 / 2 ∧
    (DetBenchTrainClsAndDet.build geom model3 config).anchor_labeler.match_threshold = 1 / 2 :=
  ⟨rfl, rfl, rfl⟩

/-! ### Claim C10 -/

